import Mathlib

/-!
Shallow embedding of the Excel/CSV batch-merge tool (`web_app.py`).

A pandas `DataFrame` is modelled as a `Table`: a column count together with a
list of rows, each row a list of optional cells (`none` is `NaN`).  The
external codec libraries (`pandas.read_csv`, `pandas.read_excel`,
`DataFrame.to_csv`, `DataFrame.to_excel`) are black boxes, modelled by a
`Codecs` record of oracles: parsing a byte content under an encoding yields
either an error message or the full parsed grid, and the `skiprows` / `nrows`
keyword arguments are applied to that grid as drop / take.  Python exceptions
are modelled by the `Except PyErr` monad; an uncaught exception escaping
`merge_uploaded_files` is an `Except.error` result of the whole invocation.
The wall-clock timestamp used by `generate_output_filename`
(`datetime.now().strftime`) is passed in as an explicit string parameter.
-/

/-- Raw byte content of an uploaded file. -/
abbrev Bytes := List Nat

/-- A pandas DataFrame: a column count plus rows of optional cells
(`none` models `NaN`/absent). -/
structure Table where
  cols : Nat
  rows : List (List (Option String))
deriving Repr, DecidableEq

/-- `pd.DataFrame()`: zero rows, zero columns. -/
def Table.emptyTable : Table := ⟨0, []⟩

/-- `df.empty`: true when either axis has length zero. -/
def Table.isEmpty (t : Table) : Bool := t.rows.isEmpty || t.cols == 0

/-- `df.dropna(how="all")`: drop the rows whose cells are all absent. -/
def Table.dropnaAll (t : Table) : Table :=
  ⟨t.cols, t.rows.filter (fun r => !(r.all Option.isNone))⟩

/-- `df.head(n)`: the first `min n (row count)` rows. -/
def Table.head (t : Table) (n : Nat) : Table := ⟨t.cols, t.rows.take n⟩

/-- Well-formedness: every row has exactly `cols` cells (pandas frames are
rectangular). -/
def Table.wf (t : Table) : Bool := t.rows.all (fun r => r.length == t.cols)

/-- The body of the `normalize_columns` loop after the emptiness checks:
`df.iloc[:, :max_columns]` when too wide, `df[i] = None` for the missing
columns when too narrow, unchanged otherwise. -/
def Table.fitWidth (t : Table) (n : Nat) : Table :=
  if n < t.cols then ⟨n, t.rows.map (fun r => r.take n)⟩
  else if t.cols < n then
    ⟨n, t.rows.map (fun r => r ++ List.replicate (n - t.cols) (none : Option String))⟩
  else t

/-- `df.reindex(columns=range(n))` on a frame whose labels are `0..cols-1`
(read with `header=None`): keep columns `0..n-1`, missing ones filled with
absent cells. -/
def Table.reindexTo (t : Table) (n : Nat) : Table :=
  ⟨n, t.rows.map (fun r => r.take n ++ List.replicate (n - t.cols) (none : Option String))⟩

/-- Python's `str.lower()`, character by character. -/
def pyLower (s : String) : String := ⟨s.data.map Char.toLower⟩

/-- Python's `str.endswith(t)`: `t` is a suffix of `s`. -/
def pyEndsWith (s t : String) : Bool :=
  decide (t.data = s.data.drop (s.data.length - t.data.length))

/-- Python's `str.lstrip(".")`: remove all leading dots. -/
def pyLstripDots (s : String) : String := ⟨s.data.dropWhile (fun ch => ch == '.')⟩

/-- Python exceptions that the merge pipeline can raise. -/
inductive PyErr where
  /-- `RuntimeError` raised by `_read_csv_with_encoding` when every encoding
  fails; carries the last underlying error message. -/
  | decodeError (last : Option String)
  /-- An exception escaping the external spreadsheet reader. -/
  | libError (msg : String)
  /-- `ValueError("不支持的文件类型")`. -/
  | valueError (msg : String)
  /-- `KeyError` from a `dict[...]` access. -/
  | keyError (key : String)
deriving Repr, DecidableEq

/-- The external codec capabilities (pandas/openpyxl), as oracles.
`parseCSV enc content` is `pd.read_csv` of `content` under encoding `enc`
giving the full parsed grid; `parseXLSX` likewise for `pd.read_excel`;
`csvBytes` and `xlsxBytes` are the serializers of `write_csv_to_bytes` and
`write_excel_to_bytes`. -/
structure Codecs where
  parseCSV : String → Bytes → Except String Table
  parseXLSX : Bytes → Except String Table
  csvBytes : Table → Bytes
  xlsxBytes : Table → Nat → Bytes

/-- `SUPPORTED_ENCODINGS` from `web_app.py`. -/
def SUPPORTED_ENCODINGS : List String := ["utf-8", "gbk", "gb2312", "utf-8-sig", "latin1"]

/-- `SUPPORTED_FORMATS` from `web_app.py` (insertion order preserved). -/
def SUPPORTED_FORMATS : List (String × String) := [(".xlsx", "Excel"), (".csv", "CSV")]

/-- `OUTPUT_PREFIX` from `web_app.py`. -/
def outputPrefixStr : String := "合并结果_"

/-- The `skiprows=` / `nrows=` keyword arguments applied to a parsed grid:
drop the first `skip` rows, then keep at most `nrows` rows when given. -/
def applyWindow (skip : Nat) (nrows : Option Nat) (t : Table) : Table :=
  ⟨t.cols, match nrows with
           | some n => (t.rows.drop skip).take n
           | none => t.rows.drop skip⟩

/-- The encoding-retry loop of `_read_csv_with_encoding`, carrying
`last_error`. -/
def tryEncodings (C : Codecs) (content : Bytes) (skip : Nat) (nrows : Option Nat) :
    List String → Option String → Except PyErr Table
  | [], last => .error (.decodeError last)
  | e :: es, _ =>
    match C.parseCSV e content with
    | .ok t => .ok (applyWindow skip nrows t)
    | .error m => tryEncodings C content skip nrows es (some m)

/-- `_read_csv_with_encoding(content, **kwargs)`. -/
def read_csv_with_encoding (C : Codecs) (content : Bytes) (skip : Nat) (nrows : Option Nat) :
    Except PyErr Table :=
  tryEncodings C content skip nrows SUPPORTED_ENCODINGS none

/-- `pd.read_excel(io.BytesIO(content), skiprows=..., nrows=..., header=None)`;
an exception from the library propagates. -/
def readExcel (C : Codecs) (content : Bytes) (skip : Nat) (nrows : Option Nat) :
    Except PyErr Table :=
  match C.parseXLSX content with
  | .ok t => .ok (applyWindow skip nrows t)
  | .error m => .error (.libError m)

/-- `read_header_from_upload`. -/
def read_header_from_upload (C : Codecs) (file_name : String) (content : Bytes)
    (skip_rows : Nat) : Except PyErr Table :=
  if skip_rows == 0 then .ok Table.emptyTable
  else if pyEndsWith (pyLower file_name) ".csv" then
    read_csv_with_encoding C content 0 (some skip_rows)
  else if pyEndsWith (pyLower file_name) ".xlsx" then
    readExcel C content 0 (some skip_rows)
  else .error (.valueError "不支持的文件类型")

/-- `read_data_from_upload`. -/
def read_data_from_upload (C : Codecs) (file_name : String) (content : Bytes)
    (skip_rows : Nat) : Except PyErr Table :=
  if pyEndsWith (pyLower file_name) ".csv" then
    read_csv_with_encoding C content skip_rows none
  else if pyEndsWith (pyLower file_name) ".xlsx" then
    readExcel C content skip_rows none
  else .error (.valueError "不支持的文件类型")

/-- `get_base_columns_from_first_file`: probe one data row, return
`list(range(num_cols))`. -/
def get_base_columns_from_first_file (C : Codecs) (file_name : String) (content : Bytes)
    (skip_rows : Nat) : Except PyErr (List Nat) :=
  match
    (if pyEndsWith (pyLower file_name) ".csv" then
      read_csv_with_encoding C content skip_rows (some 1)
    else if pyEndsWith (pyLower file_name) ".xlsx" then
      readExcel C content skip_rows (some 1)
    else .error (.valueError "不支持的文件类型"))
  with
  | .error e => .error e
  | .ok probe => .ok (List.range probe.cols)

/-- `normalize_columns`: skip empty frames, drop all-absent rows, skip frames
emptied by that, then truncate or null-pad to the base width. -/
def normalize_columns (dataframes : List Table) (base_columns : List Nat) : List Table :=
  dataframes.filterMap (fun df =>
    if df.isEmpty then none
    else
      let d := df.dropnaAll
      if d.rows.isEmpty then none
      else some (d.fitWidth base_columns.length))

/-- `combine_data_with_header`: a non-empty header block is reindexed to the
base width and prepended; an empty header leaves the data unchanged
(`pd.concat` with the empty `pd.DataFrame()` placeholder). -/
def combine_data_with_header (header_df data_df : Table) (base_columns : List Nat) : Table :=
  if header_df.isEmpty then data_df
  else ⟨base_columns.length, (header_df.reindexTo base_columns.length).rows ++ data_df.rows⟩

/-- `pd.concat(normalized, ignore_index=True)`: all frames carry the base
labels, so the result has the base width and the rows joined in order. -/
def concatTables (ts : List Table) (n : Nat) : Table :=
  ⟨n, (ts.map Table.rows).flatten⟩

/-- `generate_output_filename`, with the `datetime.now().strftime` result
passed in as `timestamp`. -/
def generate_output_filename (file_count : Nat) (file_format : String) (skip_rows : Nat)
    (timestamp : String) : String :=
  let format_name := (SUPPORTED_FORMATS.lookup ("." ++ pyLower file_format)).getD file_format
  outputPrefixStr ++ toString file_count ++ "个" ++ format_name ++ "文件_跳过" ++
    toString skip_rows ++ "行_" ++ timestamp ++ "." ++ pyLower file_format

/-- The ordering used by `sorted(files, key=lambda x: x[0])`: Python compares
strings by code points, i.e. lexicographically on the character sequence. -/
def fileLe (a b : String × Bytes) : Prop := a.1.data ≤ b.1.data

instance : DecidableRel fileLe := fun a b => inferInstanceAs (Decidable (a.1.data ≤ b.1.data))

instance : IsTotal (String × Bytes) fileLe := ⟨fun a b => le_total a.1.data b.1.data⟩

instance : IsTrans (String × Bytes) fileLe := ⟨fun _ _ _ hab hbc => le_trans hab hbc⟩

/-- `sorted(files, key=lambda x: x[0])`: stable ascending sort by name. -/
def sortFiles (files : List (String × Bytes)) : List (String × Bytes) :=
  List.insertionSort fileLe files

/-- One entry of the `results` dict of `merge_uploaded_files`: either the
`status: "empty"` record (status and message only — in particular no output
bytes) or the full `status: "ok"` record. -/
inductive GroupResult where
  | empty (message : String)
  | ok (file_name : String) (bytes : Bytes) (preview : Table) (rows : Nat)
      (files : List String) (last_header_row : Option (List (Option String)))
      (base_columns_count : Nat)
deriving Repr, DecidableEq

/-- The body of the `for ext, files in grouped_files.items()` loop for one
group: `ok none` models `continue` on an empty group, `ok (some entry)` a
`results[ext] = ...` assignment, `error e` an exception escaping the loop. -/
def processGroup (C : Codecs) (ext : String) (files : List (String × Bytes)) (skip : Nat)
    (ts : String) : Except PyErr (Option (String × GroupResult)) :=
  if files.isEmpty then .ok none
  else
    match sortFiles files with
    | [] => .ok none
    | (firstName, firstContent) :: rest =>
      match get_base_columns_from_first_file C firstName firstContent skip with
      | .error e => .error e
      | .ok base =>
        match read_header_from_upload C firstName firstContent skip with
        | .error e => .error e
        | .ok header =>
          let sorted := (firstName, firstContent) :: rest
          let lastHeaderRow : Option (List (Option String)) :=
            if 0 < skip ∧ header.isEmpty = false then header.rows.getLast? else none
          match sorted.mapM (fun fc => read_data_from_upload C fc.1 fc.2 skip) with
          | .error e => .error e
          | .ok dfs =>
            let normalized := normalize_columns dfs base
            if normalized.isEmpty then
              match SUPPORTED_FORMATS.lookup ext with
              | none => .error (.keyError ext)
              | some fmtName =>
                .ok (some (ext, .empty ("未找到有效的 " ++ fmtName ++ " 数据进行合并")))
            else
              let combined := concatTables normalized base.length
              let final := combine_data_with_header header combined base
              let fileFormat := pyLstripDots ext
              let outBytes := if ext == ".csv" then C.csvBytes final else C.xlsxBytes final skip
              let outName := generate_output_filename sorted.length fileFormat skip ts
              .ok (some (ext, .ok outName outBytes (final.head 10) combined.rows.length
                    (sorted.map Prod.fst) lastHeaderRow base.length))

/-- `merge_uploaded_files`: process the groups in dict order; an exception in
any group aborts the whole invocation (there is no try/except in the loop). -/
def merge_uploaded_files (C : Codecs) (grouped : List (String × List (String × Bytes)))
    (skip : Nat) (ts : String) : Except PyErr (List (String × GroupResult)) :=
  match grouped with
  | [] => .ok []
  | (ext, files) :: rest =>
    match processGroup C ext files skip ts with
    | .error e => .error e
    | .ok r =>
      match merge_uploaded_files C rest skip ts with
      | .error e => .error e
      | .ok rs => .ok (r.toList ++ rs)

/-! Helper lemmas about the encoding-retry loop. -/

theorem tryEncodings_success (C : Codecs) (content : Bytes) (skip : Nat) (nrows : Option Nat) :
    ∀ (pre : List String) (e : String) (post : List String) (t : Table) (last : Option String),
      (∀ e' ∈ pre, ∀ u, C.parseCSV e' content ≠ .ok u) →
      C.parseCSV e content = .ok t →
      tryEncodings C content skip nrows (pre ++ e :: post) last = .ok (applyWindow skip nrows t) := by
  intro pre
  induction pre with
  | nil =>
    intro e post t last _ hok
    simp [tryEncodings, hok]
  | cons e' pre ih =>
    intro e post t last hpre hok
    cases h : C.parseCSV e' content with
    | ok u => exact absurd h (hpre e' (List.mem_cons_self _ _) u)
    | error m =>
      simp only [List.cons_append, tryEncodings, h]
      exact ih e post t (some m) (fun x hx u => hpre x (List.mem_cons_of_mem _ hx) u) hok

theorem tryEncodings_all_fail (C : Codecs) (content : Bytes) (skip : Nat) (nrows : Option Nat) :
    ∀ (es : List String) (b : String) (last : Option String) (m : String),
      (∀ e ∈ es, ∃ me, C.parseCSV e content = .error me) →
      C.parseCSV b content = .error m →
      tryEncodings C content skip nrows (es ++ [b]) last = .error (.decodeError (some m)) := by
  intro es
  induction es with
  | nil =>
    intro b last m _ hb
    simp [tryEncodings, hb]
  | cons e es ih =>
    intro b last m hes hb
    obtain ⟨me, hme⟩ := hes e (List.mem_cons_self _ _)
    simp only [List.cons_append, tryEncodings, hme]
    exact ih b (some me) m (fun x hx => hes x (List.mem_cons_of_mem _ hx)) hb

/-- Claim C4 (confirmed): the CSV decoder attempts the encodings in the fixed
order UTF-8, GBK, GB2312, UTF-8-with-signature, Latin-1, returns the table of
the first encoding whose decode+parse succeeds, and when all five fail it
fails with a `RuntimeError` carrying the last attempted encoding's (Latin-1's)
underlying failure. -/
theorem c4_csv_encoding_order (C : Codecs) (content : Bytes) (skip : Nat) (nrows : Option Nat) :
    SUPPORTED_ENCODINGS = ["utf-8", "gbk", "gb2312", "utf-8-sig", "latin1"]
    ∧ (∀ (pre : List String) (e : String) (post : List String) (t : Table),
        SUPPORTED_ENCODINGS = pre ++ e :: post →
        (∀ e' ∈ pre, ∀ u, C.parseCSV e' content ≠ .ok u) →
        C.parseCSV e content = .ok t →
        read_csv_with_encoding C content skip nrows = .ok (applyWindow skip nrows t))
    ∧ (∀ m : String,
        (∀ e ∈ SUPPORTED_ENCODINGS, ∃ me, C.parseCSV e content = .error me) →
        C.parseCSV "latin1" content = .error m →
        read_csv_with_encoding C content skip nrows = .error (.decodeError (some m))) := by
  refine ⟨rfl, ?_, ?_⟩
  · intro pre e post t hsplit hpre hok
    unfold read_csv_with_encoding
    rw [hsplit]
    exact tryEncodings_success C content skip nrows pre e post t none hpre hok
  · intro m hall hlast
    unfold read_csv_with_encoding
    have hsplit : SUPPORTED_ENCODINGS = ["utf-8", "gbk", "gb2312", "utf-8-sig"] ++ ["latin1"] := rfl
    rw [hsplit]
    refine tryEncodings_all_fail C content skip nrows _ _ none m ?_ hlast
    intro e he
    exact hall e (by rw [hsplit]; exact List.mem_append_left _ he)

/-- A codec whose UTF-8 parse fails and whose other parses succeed. -/
def c4SecondTry : Codecs where
  parseCSV := fun enc _ => if enc == "utf-8" then .error "bad utf-8" else .ok ⟨1, [[some "A"]]⟩
  parseXLSX := fun _ => .error "no xlsx"
  csvBytes := fun t => [t.rows.length]
  xlsxBytes := fun t _ => [t.rows.length]

/-- A codec whose CSV parse fails under every encoding. -/
def c4AllFail : Codecs where
  parseCSV := fun enc _ => .error ("bad " ++ enc)
  parseXLSX := fun _ => .error "no xlsx"
  csvBytes := fun t => [t.rows.length]
  xlsxBytes := fun t _ => [t.rows.length]

/-- Witness for C4: a concrete decode that fails under UTF-8 and succeeds
under GBK returns the GBK table, and a decode failing under all five
encodings reports the Latin-1 failure. -/
theorem c4_witness :
    read_csv_with_encoding c4SecondTry [7] 0 none = .ok (applyWindow 0 none ⟨1, [[some "A"]]⟩)
    ∧ read_csv_with_encoding c4AllFail [7] 0 none
        = .error (.decodeError (some "bad latin1")) := by
  constructor
  · refine (c4_csv_encoding_order c4SecondTry [7] 0 none).2.1
      ["utf-8"] "gbk" ["gb2312", "utf-8-sig", "latin1"] ⟨1, [[some "A"]]⟩ rfl ?_ rfl
    intro e' he' u hu
    have he : e' = "utf-8" := by simpa using he'
    rw [he] at hu
    simp [c4SecondTry] at hu
  · exact (c4_csv_encoding_order c4AllFail [7] 0 none).2.2 "bad latin1"
      (fun e _ => ⟨"bad " ++ e, rfl⟩) rfl

/-- Claim C8 (confirmed): the generated output filename follows the pattern
`{prefix}{file_count}个{format_display_name}文件_跳过{skip_rows}行_{timestamp}.{format_extension}`
where the display name is looked up from the supported-format map (the
timestamp, produced externally by `datetime.now().strftime("%Y%m%d_%H%M%S")`,
is modelled as the explicit `timestamp` argument). -/
theorem c8_filename_pattern (file_count : Nat) (file_format : String) (skip_rows : Nat)
    (timestamp dn : String)
    (h : SUPPORTED_FORMATS.lookup ("." ++ pyLower file_format) = some dn) :
    generate_output_filename file_count file_format skip_rows timestamp =
      outputPrefixStr ++ toString file_count ++ "个" ++ dn ++ "文件_跳过" ++
        toString skip_rows ++ "行_" ++ timestamp ++ "." ++ pyLower file_format := by
  unfold generate_output_filename
  rw [h]
  rfl

/-- Witness for C8: the filename generated for 2 CSV files with one skipped
row and timestamp `TS`. -/
theorem c8_witness :
    SUPPORTED_FORMATS.lookup ("." ++ pyLower "csv") = some "CSV"
    ∧ generate_output_filename 2 "csv" 1 "TS" = "合并结果_2个CSV文件_跳过1行_TS.csv" := by
  refine ⟨rfl, ?_⟩
  rw [c8_filename_pattern 2 "csv" 1 "TS" "CSV" rfl]
  rfl

/-- Claim C9 (confirmed): when the lowercased dotted extension is not a key of
the supported-format map, the filename generator does not fail and uses the
raw format string itself as the display name. -/
theorem c9_filename_fallback (file_count : Nat) (file_format : String) (skip_rows : Nat)
    (timestamp : String)
    (h : SUPPORTED_FORMATS.lookup ("." ++ pyLower file_format) = none) :
    generate_output_filename file_count file_format skip_rows timestamp =
      outputPrefixStr ++ toString file_count ++ "个" ++ file_format ++ "文件_跳过" ++
        toString skip_rows ++ "行_" ++ timestamp ++ "." ++ pyLower file_format := by
  unfold generate_output_filename
  rw [h]
  rfl

/-- Witness for C9: the filename generated for an unsupported `txt` format
falls back to the raw format string. -/
theorem c9_witness :
    SUPPORTED_FORMATS.lookup ("." ++ pyLower "txt") = none
    ∧ generate_output_filename 2 "txt" 1 "TS" = "合并结果_2个txt文件_跳过1行_TS.txt" := by
  refine ⟨rfl, ?_⟩
  rw [c9_filename_fallback 2 "txt" 1 "TS" rfl]
  rfl

/-! Helper lemmas about table shapes. -/

theorem fitWidth_cols (t : Table) (n : Nat) : (t.fitWidth n).cols = n := by
  unfold Table.fitWidth
  split
  · rfl
  · split
    · rfl
    · omega

theorem fitWidth_rows_length (t : Table) (n : Nat) :
    (t.fitWidth n).rows.length = t.rows.length := by
  unfold Table.fitWidth
  split
  · simp
  · split
    · simp
    · rfl

theorem fitWidth_row_len (t : Table) (n : Nat) (hwf : t.wf = true) :
    ∀ r ∈ (t.fitWidth n).rows, r.length = n := by
  intro r hr
  unfold Table.wf at hwf
  simp only [List.all_eq_true, beq_iff_eq] at hwf
  unfold Table.fitWidth at hr
  split at hr
  · obtain ⟨r0, hr0, rfl⟩ := List.mem_map.mp hr
    have := hwf r0 hr0
    simp [List.length_take]
    omega
  · split at hr
    · obtain ⟨r0, hr0, rfl⟩ := List.mem_map.mp hr
      have := hwf r0 hr0
      simp [this]
      omega
    · have := hwf r hr
      omega

theorem dropnaAll_wf (t : Table) (hwf : t.wf = true) : t.dropnaAll.wf = true := by
  unfold Table.wf at hwf ⊢
  simp only [List.all_eq_true] at hwf ⊢
  intro r hr
  exact hwf r (List.mem_of_mem_filter hr)

theorem dropnaAll_rows_nil_of_isEmpty (t : Table) (hwf : t.wf = true)
    (he : t.isEmpty = true) : t.dropnaAll.rows = [] := by
  unfold Table.isEmpty at he
  unfold Table.dropnaAll
  simp only [Bool.or_eq_true, List.isEmpty_iff, beq_iff_eq] at he
  cases he with
  | inl h => simp [h]
  | inr h =>
    unfold Table.wf at hwf
    simp only [List.all_eq_true, beq_iff_eq] at hwf
    rw [List.filter_eq_nil_iff]
    intro r hr
    have hlen : r.length = 0 := by rw [hwf r hr, h]
    rw [List.length_eq_zero] at hlen
    subst hlen
    simp

theorem isEmpty_false_of_dropnaAll_ne (t : Table) (hwf : t.wf = true)
    (hne : t.dropnaAll.rows ≠ []) : t.isEmpty = false := by
  by_contra hcon
  have : t.isEmpty = true := by
    cases h : t.isEmpty
    · exact absurd h hcon
    · rfl
  exact hne (dropnaAll_rows_nil_of_isEmpty t hwf this)

/-- Claim C3 (confirmed): normalization keeps exactly the tables that are
non-empty after dropping all-absent rows, in input order, and every kept
table has exactly `len(base_columns)` columns — wider tables are truncated,
narrower ones padded with absent-valued columns. -/
theorem c3_normalize_columns (dfs : List Table) (base_columns : List Nat)
    (hwf : ∀ t ∈ dfs, t.wf = true) :
    normalize_columns dfs base_columns
        = ((dfs.map Table.dropnaAll).filter (fun d => !d.rows.isEmpty)).map
            (fun d => d.fitWidth base_columns.length)
    ∧ (∀ t ∈ normalize_columns dfs base_columns,
        t.cols = base_columns.length ∧ ∀ r ∈ t.rows, r.length = base_columns.length)
    ∧ (∀ d : Table,
        (base_columns.length < d.cols →
          (d.fitWidth base_columns.length).rows
            = d.rows.map (fun r => r.take base_columns.length))
        ∧ (d.cols < base_columns.length →
          (d.fitWidth base_columns.length).rows
            = d.rows.map (fun r => r ++ List.replicate (base_columns.length - d.cols)
                (none : Option String)))) := by
  refine ⟨?_, ?_, ?_⟩
  · induction dfs with
    | nil => rfl
    | cons df rest ih =>
      have hdf : df.wf = true := hwf df (List.mem_cons_self _ _)
      have htail := ih (fun t ht => hwf t (List.mem_cons_of_mem _ ht))
      rw [List.map_cons, List.filter_cons]
      by_cases hemp : df.isEmpty = true
      · have hnil : df.dropnaAll.rows = [] := dropnaAll_rows_nil_of_isEmpty df hdf hemp
        have hfa : (if df.isEmpty = true then none
            else if df.dropnaAll.rows.isEmpty = true then none
            else some (df.dropnaAll.fitWidth base_columns.length)) = (none : Option Table) := by
          rw [if_pos hemp]
        have hcond : (!df.dropnaAll.rows.isEmpty) = false := by simp [hnil]
        rw [hcond]
        simp only [Bool.false_eq_true, if_false]
        rw [show normalize_columns (df :: rest) base_columns
              = normalize_columns rest base_columns from List.filterMap_cons_none hfa]
        exact htail
      · by_cases hdrop : df.dropnaAll.rows.isEmpty = true
        · have hfa : (if df.isEmpty = true then none
              else if df.dropnaAll.rows.isEmpty = true then none
              else some (df.dropnaAll.fitWidth base_columns.length)) = (none : Option Table) := by
            rw [if_neg hemp, if_pos hdrop]
          have hcond : (!df.dropnaAll.rows.isEmpty) = false := by simp [hdrop]
          rw [hcond]
          simp only [Bool.false_eq_true, if_false]
          rw [show normalize_columns (df :: rest) base_columns
                = normalize_columns rest base_columns from List.filterMap_cons_none hfa]
          exact htail
        · have hfa : (if df.isEmpty = true then none
              else if df.dropnaAll.rows.isEmpty = true then none
              else some (df.dropnaAll.fitWidth base_columns.length))
              = some (df.dropnaAll.fitWidth base_columns.length) := by
            rw [if_neg hemp, if_neg hdrop]
          have hcond : (!df.dropnaAll.rows.isEmpty) = true := by
            cases h : df.dropnaAll.rows.isEmpty
            · rfl
            · exact absurd h hdrop
          rw [hcond]
          simp only [if_true]
          rw [show normalize_columns (df :: rest) base_columns
                = df.dropnaAll.fitWidth base_columns.length :: normalize_columns rest base_columns
              from List.filterMap_cons_some hfa]
          rw [List.map_cons, htail]
  · intro t ht
    simp only [normalize_columns, List.mem_filterMap] at ht
    obtain ⟨df, hdf, hstep⟩ := ht
    have hdfwf : df.wf = true := hwf df hdf
    split at hstep
    · exact absurd hstep (by simp)
    · split at hstep
      · exact absurd hstep (by simp)
      · have ht' : t = df.dropnaAll.fitWidth base_columns.length := by
          injection hstep with h
          exact h.symm
        subst ht'
        exact ⟨fitWidth_cols _ _,
          fitWidth_row_len _ _ (dropnaAll_wf df hdfwf)⟩
  · intro d
    constructor
    · intro hlt
      unfold Table.fitWidth
      rw [if_pos hlt]
    · intro hlt
      unfold Table.fitWidth
      rw [if_neg (by omega), if_pos hlt]

/-- Witness for C3: a three-table group with an all-absent table, a narrow
table and a wide table, normalized to width 3. -/
theorem c3_witness :
    normalize_columns
        [⟨2, [[some "a", none]]⟩, ⟨1, [[none]]⟩,
         ⟨4, [[some "p", some "q", some "r", some "s"]]⟩] [0, 1, 2]
      = ((([⟨2, [[some "a", none]]⟩, ⟨1, [[none]]⟩,
           ⟨4, [[some "p", some "q", some "r", some "s"]]⟩] : List Table).map
              Table.dropnaAll).filter (fun d => !d.rows.isEmpty)).map
            (fun d => d.fitWidth 3) :=
  (c3_normalize_columns _ [0, 1, 2] (by decide)).1

/-! Helper lemmas about the merge orchestrator. -/

theorem sortFiles_nil : sortFiles [] = [] := rfl

theorem isEmpty_false_of_sortFiles_cons (files : List (String × Bytes)) (x : String × Bytes)
    (l : List (String × Bytes)) (h : sortFiles files = x :: l) : files.isEmpty = false := by
  cases files with
  | nil => exact absurd h (by simp [sortFiles_nil])
  | cons a t => rfl

/-- Claim C2 (confirmed): a group whose decoded tables all normalize away
(zero valid non-empty tables) yields the `empty` status with a human-readable
message — an `ok` value, not an exception — and the `empty` result carries no
output bytes (the constructor has none). -/
theorem c2_empty_group (C : Codecs) (ext fmtName ts : String) (files : List (String × Bytes))
    (skip : Nat) (n0 : String) (c0 : Bytes) (rst : List (String × Bytes)) (base : List Nat)
    (header : Table) (dfs : List Table)
    (hsorted : sortFiles files = (n0, c0) :: rst)
    (hbase : get_base_columns_from_first_file C n0 c0 skip = .ok base)
    (hheader : read_header_from_upload C n0 c0 skip = .ok header)
    (hdfs : ((n0, c0) :: rst).mapM (fun fc => read_data_from_upload C fc.1 fc.2 skip) = .ok dfs)
    (hnorm : normalize_columns dfs base = [])
    (hfmt : SUPPORTED_FORMATS.lookup ext = some fmtName) :
    processGroup C ext files skip ts
      = .ok (some (ext, GroupResult.empty ("未找到有效的 " ++ fmtName ++ " 数据进行合并"))) := by
  have hne := isEmpty_false_of_sortFiles_cons files _ _ hsorted
  simp only [processGroup, hne, Bool.false_eq_true, if_false, hsorted, hbase, hheader, hdfs,
    hnorm, hfmt, List.isEmpty_nil, if_true]

/-- A concrete codec for witnesses: a CSV byte `0` parses to an all-absent
row, any other byte `b` to the row `[some (toString b), none]`. -/
def demoCodecs : Codecs where
  parseCSV := fun _ c =>
    .ok ⟨2, c.map (fun b => if b == 0 then [none, none] else [some (toString b), none])⟩
  parseXLSX := fun c => .ok ⟨1, c.map (fun b => [some (toString b)])⟩
  csvBytes := fun t => [t.rows.length, t.cols]
  xlsxBytes := fun t k => [t.rows.length, t.cols, k]

/-- Witness for C2: one CSV file whose single data row is all-absent merges
to the `empty` status with the message for the CSV group. -/
theorem c2_witness :
    processGroup demoCodecs ".csv" [("a.csv", [0])] 0 "TS"
      = .ok (some (".csv", GroupResult.empty "未找到有效的 CSV 数据进行合并")) :=
  c2_empty_group demoCodecs ".csv" "CSV" "TS" [("a.csv", [0])] 0 "a.csv" [0] []
    [0, 1] Table.emptyTable [⟨2, [[none, none]]⟩] rfl rfl rfl rfl rfl rfl

theorem normalize_rows_sum (dfs : List Table) (base_columns : List Nat)
    (hwf : ∀ t ∈ dfs, t.wf = true) :
    ((normalize_columns dfs base_columns).map (fun t => t.rows.length)).sum
      = (dfs.map (fun df => df.dropnaAll.rows.length)).sum := by
  induction dfs with
  | nil => rfl
  | cons df rest ih =>
    have hdf : df.wf = true := hwf df (List.mem_cons_self _ _)
    have htail := ih (fun t ht => hwf t (List.mem_cons_of_mem _ ht))
    rw [List.map_cons, List.sum_cons]
    by_cases hemp : df.isEmpty = true
    · have hnil : df.dropnaAll.rows = [] := dropnaAll_rows_nil_of_isEmpty df hdf hemp
      have hfa : (if df.isEmpty = true then none
          else if df.dropnaAll.rows.isEmpty = true then none
          else some (df.dropnaAll.fitWidth base_columns.length)) = (none : Option Table) := by
        rw [if_pos hemp]
      rw [show normalize_columns (df :: rest) base_columns
            = normalize_columns rest base_columns from List.filterMap_cons_none hfa,
        htail, hnil]
      simp
    · by_cases hdrop : df.dropnaAll.rows.isEmpty = true
      · have hnil : df.dropnaAll.rows = [] := List.isEmpty_iff.mp hdrop
        have hfa : (if df.isEmpty = true then none
            else if df.dropnaAll.rows.isEmpty = true then none
            else some (df.dropnaAll.fitWidth base_columns.length)) = (none : Option Table) := by
          rw [if_neg hemp, if_pos hdrop]
        rw [show normalize_columns (df :: rest) base_columns
              = normalize_columns rest base_columns from List.filterMap_cons_none hfa,
          htail, hnil]
        simp
      · have hfa : (if df.isEmpty = true then none
            else if df.dropnaAll.rows.isEmpty = true then none
            else some (df.dropnaAll.fitWidth base_columns.length))
            = some (df.dropnaAll.fitWidth base_columns.length) := by
          rw [if_neg hemp, if_neg hdrop]
        rw [show normalize_columns (df :: rest) base_columns
              = df.dropnaAll.fitWidth base_columns.length :: normalize_columns rest base_columns
            from List.filterMap_cons_some hfa]
        rw [List.map_cons, List.sum_cons, htail, fitWidth_rows_length]

theorem concatTables_rows_length (ts : List Table) (n : Nat) :
    (concatTables ts n).rows.length = (ts.map (fun t => t.rows.length)).sum := by
  simp [concatTables]
  rfl

/-- Evaluation of `processGroup` on the `ok` branch, with every result field
spelled out. -/
theorem processGroup_ok_eval (C : Codecs) (ext ts : String) (files : List (String × Bytes))
    (skip : Nat) (n0 : String) (c0 : Bytes) (rst : List (String × Bytes)) (base : List Nat)
    (header : Table) (dfs : List Table)
    (hsorted : sortFiles files = (n0, c0) :: rst)
    (hbase : get_base_columns_from_first_file C n0 c0 skip = .ok base)
    (hheader : read_header_from_upload C n0 c0 skip = .ok header)
    (hdfs : ((n0, c0) :: rst).mapM (fun fc => read_data_from_upload C fc.1 fc.2 skip) = .ok dfs)
    (hnemp : (normalize_columns dfs base).isEmpty = false) :
    processGroup C ext files skip ts
      = .ok (some (ext, GroupResult.ok
          (generate_output_filename ((n0, c0) :: rst).length (pyLstripDots ext) skip ts)
          (if ext == ".csv"
            then C.csvBytes (combine_data_with_header header
              (concatTables (normalize_columns dfs base) base.length) base)
            else C.xlsxBytes (combine_data_with_header header
              (concatTables (normalize_columns dfs base) base.length) base) skip)
          ((combine_data_with_header header
              (concatTables (normalize_columns dfs base) base.length) base).head 10)
          (concatTables (normalize_columns dfs base) base.length).rows.length
          (((n0, c0) :: rst).map Prod.fst)
          (if 0 < skip ∧ header.isEmpty = false then header.rows.getLast? else none)
          base.length)) := by
  have hne := isEmpty_false_of_sortFiles_cons files _ _ hsorted
  simp only [processGroup, hne, Bool.false_eq_true, if_false, hsorted, hbase, hheader, hdfs,
    hnemp]

/-- Claim C6 (confirmed): the `rows` count reported by an `ok` group result
is the length of the concatenated body, which equals the sum over the decoded
per-file tables of the row count remaining after the `skip_rows` leading rows
were dropped by the read and the fully-empty rows were dropped; the header
rows are not part of this count. -/
theorem c6_row_count_additivity (C : Codecs) (ext ts : String) (files : List (String × Bytes))
    (skip : Nat) (n0 : String) (c0 : Bytes) (rst : List (String × Bytes)) (base : List Nat)
    (header : Table) (dfs : List Table)
    (hsorted : sortFiles files = (n0, c0) :: rst)
    (hbase : get_base_columns_from_first_file C n0 c0 skip = .ok base)
    (hheader : read_header_from_upload C n0 c0 skip = .ok header)
    (hdfs : ((n0, c0) :: rst).mapM (fun fc => read_data_from_upload C fc.1 fc.2 skip) = .ok dfs)
    (hwf : ∀ t ∈ dfs, t.wf = true)
    (hnemp : (normalize_columns dfs base).isEmpty = false) :
    ∃ nm bts pv fls lhr,
      processGroup C ext files skip ts
        = .ok (some (ext, GroupResult.ok nm bts pv
            ((dfs.map (fun df => df.dropnaAll.rows.length)).sum) fls lhr base.length)) := by
  have key := processGroup_ok_eval C ext ts files skip n0 c0 rst base header dfs
    hsorted hbase hheader hdfs hnemp
  rw [concatTables_rows_length, normalize_rows_sum dfs base hwf] at key
  exact ⟨_, _, _, _, _, key⟩

/-- Witness for C6: two CSV files contributing two rows and one row merge
with a reported row count of three. -/
theorem c6_witness :
    ∃ nm bts pv fls lhr,
      processGroup demoCodecs ".csv" [("b.csv", [3]), ("a.csv", [1, 2])] 0 "TS"
        = .ok (some (".csv", GroupResult.ok nm bts pv
            ((([⟨2, [[some "1", none], [some "2", none]]⟩,
               ⟨2, [[some "3", none]]⟩] : List Table).map
                (fun df => df.dropnaAll.rows.length)).sum) fls lhr 2)) :=
  c6_row_count_additivity demoCodecs ".csv" "TS" [("b.csv", [3]), ("a.csv", [1, 2])] 0
    "a.csv" [1, 2] [("b.csv", [3])] [0, 1] Table.emptyTable
    [⟨2, [[some "1", none], [some "2", none]]⟩, ⟨2, [[some "3", none]]⟩]
    (by decide) rfl rfl rfl (by decide) rfl

/-- Claim C10 (confirmed): the preview of an `ok` group result is
`final_df.head(10)`: exactly the first `min 10 n` rows of the final combined
table (header rows included), `n` being that table's total row count. -/
theorem c10_preview_head10 (C : Codecs) (ext ts : String) (files : List (String × Bytes))
    (skip : Nat) (n0 : String) (c0 : Bytes) (rst : List (String × Bytes)) (base : List Nat)
    (header : Table) (dfs nts : List Table)
    (hsorted : sortFiles files = (n0, c0) :: rst)
    (hbase : get_base_columns_from_first_file C n0 c0 skip = .ok base)
    (hheader : read_header_from_upload C n0 c0 skip = .ok header)
    (hdfs : ((n0, c0) :: rst).mapM (fun fc => read_data_from_upload C fc.1 fc.2 skip) = .ok dfs)
    (hnorm : normalize_columns dfs base = nts)
    (hnemp : nts.isEmpty = false) :
    ∃ nm bts rws fls lhr,
      processGroup C ext files skip ts
        = .ok (some (ext, GroupResult.ok nm bts
            ((combine_data_with_header header (concatTables nts base.length) base).head 10)
            rws fls lhr base.length))
      ∧ ((combine_data_with_header header (concatTables nts base.length) base).head 10).rows
          = (combine_data_with_header header (concatTables nts base.length) base).rows.take 10
      ∧ ((combine_data_with_header header
            (concatTables nts base.length) base).head 10).rows.length
          = min 10 (combine_data_with_header header
              (concatTables nts base.length) base).rows.length := by
  subst hnorm
  have key := processGroup_ok_eval C ext ts files skip n0 c0 rst base header dfs
    hsorted hbase hheader hdfs hnemp
  exact ⟨_, _, _, _, _, key, rfl, by simp [Table.head]⟩

/-- Witness for C10: a two-row CSV group whose preview is its first
`min 10 2 = 2` rows. -/
theorem c10_witness :
    ∃ nm bts rws fls lhr,
      processGroup demoCodecs ".csv" [("a.csv", [1, 2])] 0 "TS"
        = .ok (some (".csv", GroupResult.ok nm bts
            ((combine_data_with_header Table.emptyTable
              (concatTables [⟨2, [[some "1", none], [some "2", none]]⟩] 2) [0, 1]).head 10)
            rws fls lhr 2))
      ∧ ((combine_data_with_header Table.emptyTable
            (concatTables [⟨2, [[some "1", none], [some "2", none]]⟩] 2) [0, 1]).head 10).rows
          = (combine_data_with_header Table.emptyTable
              (concatTables [⟨2, [[some "1", none], [some "2", none]]⟩] 2) [0, 1]).rows.take 10
      ∧ ((combine_data_with_header Table.emptyTable
            (concatTables [⟨2, [[some "1", none], [some "2", none]]⟩] 2) [0, 1]).head 10).rows.length
          = min 10 (combine_data_with_header Table.emptyTable
              (concatTables [⟨2, [[some "1", none], [some "2", none]]⟩] 2) [0, 1]).rows.length :=
  c10_preview_head10 demoCodecs ".csv" "TS" [("a.csv", [1, 2])] 0 "a.csv" [1, 2] []
    [0, 1] Table.emptyTable [⟨2, [[some "1", none], [some "2", none]]⟩]
    [⟨2, [[some "1", none], [some "2", none]]⟩] rfl rfl rfl rfl rfl rfl

/-- Claim C5 (confirmed): with `skip_rows = 0` the header read returns the
empty table without consulting any codec and combining leaves the body
unchanged; with `skip_rows = k > 0` the header read takes exactly the first
`k` rows of the first file's grid (`nrows = k`, no skip), and the combined
output starts with exactly those `k` rows width-normalized to the base column
count, followed by the merged body unchanged. -/
theorem c5_header_preservation (C : Codecs) (name : String) (content : Bytes) (k : Nat)
    (h body : Table) (base : List Nat) :
    read_header_from_upload C name content 0 = .ok Table.emptyTable
    ∧ combine_data_with_header Table.emptyTable body base = body
    ∧ (∀ g : Table, applyWindow 0 (some k) g = ⟨g.cols, g.rows.take k⟩)
    ∧ (0 < k →
        read_header_from_upload C name content k = .ok h →
        h.rows.length = k → 0 < h.cols →
        (combine_data_with_header h body base).rows.take k = (h.reindexTo base.length).rows
        ∧ (combine_data_with_header h body base).rows.drop k = body.rows
        ∧ (h.reindexTo base.length).rows.length = k
        ∧ (h.wf = true →
            ∀ r ∈ (h.reindexTo base.length).rows, r.length = base.length)) := by
  refine ⟨rfl, rfl, ?_, ?_⟩
  · intro g
    simp [applyWindow]
  · intro hk _ hlen hcols
    have hlenr : (h.reindexTo base.length).rows.length = k := by
      simp [Table.reindexTo, hlen]
    have h1 : h.rows.isEmpty = false := by
      cases hr : h.rows.isEmpty
      · rfl
      · exfalso
        rw [List.isEmpty_iff] at hr
        rw [hr] at hlen
        simp at hlen
        omega
    have h2 : (h.cols == 0) = false := by
      simp
      omega
    have hne : h.isEmpty = false := by
      simp [Table.isEmpty, h1, h2]
    have hcomb : combine_data_with_header h body base
        = ⟨base.length, (h.reindexTo base.length).rows ++ body.rows⟩ := by
      rw [combine_data_with_header, if_neg (by simp [hne])]
    refine ⟨?_, ?_, hlenr, ?_⟩
    · rw [hcomb]
      show ((h.reindexTo base.length).rows ++ body.rows).take k = (h.reindexTo base.length).rows
      rw [← hlenr, List.take_left]
    · rw [hcomb]
      show ((h.reindexTo base.length).rows ++ body.rows).drop k = body.rows
      rw [← hlenr, List.drop_left]
    · intro hwf r hr
      unfold Table.wf at hwf
      simp only [List.all_eq_true, beq_iff_eq] at hwf
      unfold Table.reindexTo at hr
      obtain ⟨r0, hr0, rfl⟩ := List.mem_map.mp hr
      have hl0 := hwf r0 hr0
      simp [List.length_take, hl0]
      omega

/-- Witness for C5: a header of one row read from a two-row CSV file with
`skip_rows = 1`, prepended to a one-row body. -/
theorem c5_witness :
    (combine_data_with_header ⟨2, [[some "1", none]]⟩ ⟨2, [[some "x", some "y"]]⟩
        [0, 1]).rows.take 1
      = ((⟨2, [[some "1", none]]⟩ : Table).reindexTo 2).rows
    ∧ (combine_data_with_header ⟨2, [[some "1", none]]⟩ ⟨2, [[some "x", some "y"]]⟩
        [0, 1]).rows.drop 1
      = ([[some "x", some "y"]] : List (List (Option String)))
    ∧ ((⟨2, [[some "1", none]]⟩ : Table).reindexTo 2).rows.length = 1
    ∧ ((⟨2, [[some "1", none]]⟩ : Table).wf = true →
        ∀ r ∈ ((⟨2, [[some "1", none]]⟩ : Table).reindexTo 2).rows, r.length = 2) :=
  (c5_header_preservation demoCodecs "a.csv" [1, 2] 1 ⟨2, [[some "1", none]]⟩
    ⟨2, [[some "x", some "y"]]⟩ [0, 1]).2.2.2 (by decide) rfl rfl (by decide)

/-- A codec whose CSV parse always fails (every encoding) and whose
spreadsheet parse succeeds. -/
def cexCodecs : Codecs where
  parseCSV := fun _ _ => .error "boom"
  parseXLSX := fun _ => .ok ⟨1, [[some "x"]]⟩
  csvBytes := fun t => [t.rows.length]
  xlsxBytes := fun t _ => [t.rows.length]

/-- A two-group invocation whose first (`.csv`) group hits a decode error
while the second (`.xlsx`) group would decode fine on its own. -/
def cexGroups : List (String × List (String × Bytes)) :=
  [(".csv", [("a.csv", [0])]), (".xlsx", [("b.xlsx", [1])])]

/-- Counterexample to claim C1 as stated: with a decode error in the `.csv`
group, the whole invocation returns that error, so the `.xlsx` group of the
same invocation does not yield its own result entry — there is no result map
at all. -/
theorem c1_counterexample :
    merge_uploaded_files cexCodecs cexGroups 0 "TS" = .error (.decodeError (some "boom"))
    ∧ ¬ ∃ rs, merge_uploaded_files cexCodecs cexGroups 0 "TS" = .ok rs
        ∧ (rs.lookup ".xlsx").isSome = true := by
  refine ⟨rfl, ?_⟩
  rintro ⟨rs, hrs, _⟩
  rw [show merge_uploaded_files cexCodecs cexGroups 0 "TS"
        = .error (.decodeError (some "boom")) from rfl] at hrs
  exact Except.noConfusion hrs

/-- Claim C1 amended (proved): a decode or format error raised while
processing one group is not contained — it aborts the entire merge
invocation, which returns that error, so no group of the invocation yields a
result entry; only the soft `empty` condition is handled per group. -/
theorem c1_error_aborts_invocation (C : Codecs) (ext : String)
    (files : List (String × Bytes)) (rest : List (String × List (String × Bytes)))
    (skip : Nat) (ts : String) (e : PyErr)
    (h : processGroup C ext files skip ts = .error e) :
    merge_uploaded_files C ((ext, files) :: rest) skip ts = .error e := by
  unfold merge_uploaded_files
  rw [h]

/-- Witness for the amended C1: the concrete failing `.csv` group aborts the
concrete two-group invocation with its decode error. -/
theorem c1_witness :
    merge_uploaded_files cexCodecs cexGroups 0 "TS"
      = .error (.decodeError (some "boom")) :=
  c1_error_aborts_invocation cexCodecs ".csv" [("a.csv", [0])]
    [(".xlsx", [("b.xlsx", [1])])] 0 "TS" (.decodeError (some "boom")) rfl

/-! Helper lemmas for determinism: a stable ascending sort of a list with
pairwise-distinct names is uniquely determined by the multiset of entries. -/

theorem sortFiles_sorted (l : List (String × Bytes)) : (sortFiles l).Sorted fileLe :=
  List.sorted_insertionSort fileLe l

theorem sortFiles_perm (l : List (String × Bytes)) : (sortFiles l).Perm l :=
  List.perm_insertionSort fileLe l

theorem sorted_perm_nodup_eq :
    ∀ (l₁ l₂ : List (String × Bytes)), l₁.Perm l₂ → l₁.Sorted fileLe → l₂.Sorted fileLe →
      (l₁.map Prod.fst).Nodup → l₁ = l₂ := by
  intro l₁
  induction l₁ with
  | nil =>
    intro l₂ hp _ _ _
    exact hp.nil_eq
  | cons a t ih =>
    intro l₂ hp hs₁ hs₂ hnd
    cases l₂ with
    | nil => exact absurd hp.symm.nil_eq (by simp)
    | cons b t₂ =>
      have hab : a = b := by
        have hbmem : b ∈ a :: t := hp.symm.subset (List.mem_cons_self b t₂)
        have hamem : a ∈ b :: t₂ := hp.subset (List.mem_cons_self a t)
        rcases List.mem_cons.mp hbmem with hb | hb
        · exact hb.symm
        rcases List.mem_cons.mp hamem with ha | ha
        · exact ha
        have h₁ : fileLe a b := List.rel_of_sorted_cons hs₁ b hb
        have h₂ : fileLe b a := List.rel_of_sorted_cons hs₂ a ha
        have hfst : a.1 = b.1 := String.ext (le_antisymm h₁ h₂)
        exact List.inj_on_of_nodup_map hnd (List.mem_cons_self a t) hbmem hfst
      subst hab
      have hp' : t.Perm t₂ := hp.cons_inv
      have hndt : (t.map Prod.fst).Nodup := by
        rw [List.map_cons] at hnd
        exact (List.nodup_cons.mp hnd).2
      rw [ih t₂ hp' hs₁.of_cons hs₂.of_cons hndt]

theorem sortFiles_eq_of_perm (l l' : List (String × Bytes)) (hp : l.Perm l')
    (hnd : (l.map Prod.fst).Nodup) : sortFiles l = sortFiles l' := by
  refine sorted_perm_nodup_eq (sortFiles l) (sortFiles l')
    ((sortFiles_perm l).trans (hp.trans (sortFiles_perm l').symm))
    (sortFiles_sorted l) (sortFiles_sorted l') ?_
  exact (((sortFiles_perm l).map Prod.fst).nodup_iff).mpr hnd

/-- Erase the only timestamp-dependent field (the generated output filename)
from a group result. -/
def stripName : GroupResult → GroupResult
  | .empty m => .empty m
  | .ok _ b p r f l c => .ok "" b p r f l c

/-- Erase the generated output filenames from a whole merge result. -/
def stripResults (r : Except PyErr (List (String × GroupResult))) :
    Except PyErr (List (String × GroupResult)) :=
  r.map (List.map (fun p => (p.1, stripName p.2)))

theorem processGroup_congr_files (C : Codecs) (ext : String)
    (files files' : List (String × Bytes)) (skip : Nat) (ts : String)
    (hp : files.Perm files') (hnd : (files.map Prod.fst).Nodup) :
    processGroup C ext files skip ts = processGroup C ext files' skip ts := by
  have hs : sortFiles files = sortFiles files' := sortFiles_eq_of_perm _ _ hp hnd
  have hie : files.isEmpty = files'.isEmpty := by
    cases files with
    | nil => rw [← hp.nil_eq]
    | cons a t =>
      cases files' with
      | nil => exact absurd hp.symm.nil_eq (by simp)
      | cons b u => rfl
  unfold processGroup
  rw [hie, hs]

theorem processGroup_ts_strip (C : Codecs) (ext : String) (files : List (String × Bytes))
    (skip : Nat) (t1 t2 : String) :
    (processGroup C ext files skip t1).map (Option.map (fun p => (p.1, stripName p.2)))
      = (processGroup C ext files skip t2).map (Option.map (fun p => (p.1, stripName p.2))) := by
  by_cases hie : files.isEmpty = true
  · simp [processGroup, hie]
  · have hie' : files.isEmpty = false := by
      cases h : files.isEmpty
      · rfl
      · exact absurd h hie
    cases hs : sortFiles files with
    | nil => simp [processGroup, hie', hs]
    | cons fc rest =>
      obtain ⟨n0, c0⟩ := fc
      cases hb : get_base_columns_from_first_file C n0 c0 skip with
      | error e => simp [processGroup, hie', hs, hb]
      | ok base =>
        cases hh : read_header_from_upload C n0 c0 skip with
        | error e => simp [processGroup, hie', hs, hb, hh]
        | ok header =>
          cases hd : List.mapM.loop (fun fc => read_data_from_upload C fc.1 fc.2 skip)
              ((n0, c0) :: rest) [] with
          | error e => simp [processGroup, hie', hs, hb, hh, hd]
          | ok dfs =>
            by_cases hn : normalize_columns dfs base = []
            · cases hf : SUPPORTED_FORMATS.lookup ext with
              | none => simp [processGroup, hie', hs, hb, hh, hd, hn, hf]
              | some nm => simp [processGroup, hie', hs, hb, hh, hd, hn, hf, stripName]
            · simp [processGroup, hie', hs, hb, hh, hd, hn]
              rfl

/-- Claim C7 (confirmed): the merge output is deterministic — with the same
codec behaviour, the same groups of (name, content) pairs and the same
`skip_rows`, two invocations agree exactly; the timestamp only enters the
generated filename, so invocations at different timestamps agree after the
filename is erased; and since files are processed in name-sorted ascending
order, presenting a group's files in any other order (names distinct) leaves
every result unchanged. -/
theorem c7_determinism (C : Codecs) (g g' : List (String × List (String × Bytes)))
    (k : Nat) (t1 t2 : String)
    (hrel : List.Forall₂
      (fun a b => a.1 = b.1 ∧ a.2.Perm b.2 ∧ (a.2.map Prod.fst).Nodup) g g') :
    merge_uploaded_files C g k t1 = merge_uploaded_files C g' k t1
    ∧ stripResults (merge_uploaded_files C g k t1)
        = stripResults (merge_uploaded_files C g' k t2) := by
  induction hrel with
  | nil => exact ⟨rfl, rfl⟩
  | cons hab htail ih =>
    rename_i a b l₁ l₂
    obtain ⟨ea, fa⟩ := a
    obtain ⟨eb, fb⟩ := b
    obtain ⟨hext, hperm, hnd⟩ := hab
    dsimp only at hext hperm hnd
    subst hext
    have hpg1 : processGroup C ea fa k t1 = processGroup C ea fb k t1 :=
      processGroup_congr_files C ea fa fb k t1 hperm hnd
    have hpg2 : (processGroup C ea fa k t1).map (Option.map (fun p => (p.1, stripName p.2)))
        = (processGroup C ea fb k t2).map (Option.map (fun p => (p.1, stripName p.2))) := by
      rw [processGroup_ts_strip C ea fa k t1 t2]
      rw [processGroup_congr_files C ea fa fb k t2 hperm hnd]
    refine ⟨?_, ?_⟩
    · show merge_uploaded_files C ((ea, fa) :: l₁) k t1
        = merge_uploaded_files C ((ea, fb) :: l₂) k t1
      unfold merge_uploaded_files
      rw [hpg1, ih.1]
    · show stripResults (merge_uploaded_files C ((ea, fa) :: l₁) k t1)
        = stripResults (merge_uploaded_files C ((ea, fb) :: l₂) k t2)
      have ihs := ih.2
      unfold merge_uploaded_files
      cases hX : processGroup C ea fa k t1 with
      | error e =>
        have hY : processGroup C ea fb k t2 = .error e := by
          rw [hX] at hpg2
          cases hY0 : processGroup C ea fb k t2 with
          | error e2 =>
            rw [hY0] at hpg2
            simp [Except.map] at hpg2
            rw [hpg2]
          | ok r2 =>
            rw [hY0] at hpg2
            simp [Except.map] at hpg2
        rw [hY]
      | ok r =>
        have hY : ∃ r2, processGroup C ea fb k t2 = .ok r2
            ∧ Option.map (fun p => (p.1, stripName p.2)) r
              = Option.map (fun p => (p.1, stripName p.2)) r2 := by
          rw [hX] at hpg2
          cases hY0 : processGroup C ea fb k t2 with
          | error e2 =>
            rw [hY0] at hpg2
            simp [Except.map] at hpg2
          | ok r2 =>
            rw [hY0] at hpg2
            simp [Except.map] at hpg2
            exact ⟨r2, rfl, hpg2⟩
        obtain ⟨r2, hY, hrr⟩ := hY
        rw [hY]
        cases hR : merge_uploaded_files C l₁ k t1 with
        | error e2 =>
          have hR2 : merge_uploaded_files C l₂ k t2 = .error e2 := by
            rw [hR] at ihs
            cases hR0 : merge_uploaded_files C l₂ k t2 with
            | error e3 =>
              rw [hR0] at ihs
              simp [stripResults, Except.map] at ihs
              rw [ihs]
            | ok rs2 =>
              rw [hR0] at ihs
              simp [stripResults, Except.map] at ihs
          rw [hR2]
        | ok rs =>
          have hR2 : ∃ rs2, merge_uploaded_files C l₂ k t2 = .ok rs2
              ∧ rs.map (fun p => (p.1, stripName p.2))
                = rs2.map (fun p => (p.1, stripName p.2)) := by
            rw [hR] at ihs
            cases hR0 : merge_uploaded_files C l₂ k t2 with
            | error e3 =>
              rw [hR0] at ihs
              simp [stripResults, Except.map] at ihs
            | ok rs2 =>
              rw [hR0] at ihs
              simp [stripResults, Except.map] at ihs
              exact ⟨rs2, rfl, ihs⟩
          obtain ⟨rs2, hR2, hss⟩ := hR2
          rw [hR2]
          simp only [stripResults, Except.map, List.map_append]
          cases r with
          | none =>
            cases r2 with
            | none => simp [hss]
            | some p2 => simp [Option.map] at hrr
          | some p =>
            cases r2 with
            | none => simp [Option.map] at hrr
            | some p2 =>
              simp [Option.map] at hrr
              simp [hss, hrr]

/-- Witness for C7: a two-file CSV group presented in either order merges
identically, and results at two different timestamps agree once the generated
filename is erased. -/
theorem c7_witness :
    merge_uploaded_files demoCodecs
        [(".csv", [("b.csv", [3]), ("a.csv", [1, 2])])] 0 "T1"
      = merge_uploaded_files demoCodecs
        [(".csv", [("a.csv", [1, 2]), ("b.csv", [3])])] 0 "T1"
    ∧ stripResults (merge_uploaded_files demoCodecs
        [(".csv", [("b.csv", [3]), ("a.csv", [1, 2])])] 0 "T1")
      = stripResults (merge_uploaded_files demoCodecs
        [(".csv", [("a.csv", [1, 2]), ("b.csv", [3])])] 0 "T2") :=
  c7_determinism demoCodecs _ _ 0 "T1" "T2"
    (List.Forall₂.cons
      ⟨rfl, List.Perm.swap ("a.csv", [1, 2]) ("b.csv", [3]) [], by decide⟩
      List.Forall₂.nil)
